import Mathlib

/-!
Shallow embedding of the berlin-police-feed harvester (main.go) and proofs
about its duplicate gate, retry loop, pruning, fingerprinting, feed
translation, scheduler and startup behaviour.

Machine integers are modelled as Nat/Int; the store (a SQLite table accessed
through gorm) is modelled as a list of events plus an oracle for the outcome
of the single-row lookup `db.First`; time-dependent quantities (the pruning
cutoff, sleep durations, random jitter) are explicit parameters or oracles.
-/

namespace BerlinPoliceFeed

/-- The persistent entity `Event` from main.go (gorm.Model bookkeeping fields
elided; they are storage-assigned and never read by the program logic). -/
structure Event where
  title : String
  description : String
  location : String
  link : String
  dateTime : Int
  hash : String
deriving DecidableEq

/-- `MetaTag` from main.go: a name/content pair extracted from a page. -/
structure MetaTag where
  name : String
  content : String
deriving DecidableEq

/-- Outcome of the store lookup `db.First(&existingEvent, &Event{Hash: ...})`:
a row is found, gorm reports `ErrRecordNotFound`, or the query fails with
some other error. -/
inductive StoreLookup where
  | found (e : Event)
  | notFound
  | queryError (msg : String)
deriving DecidableEq

/-- `checkDuplicate` from main.go: first scan the slice `events` for a hash
match (`slices.IndexFunc ... != -1` is membership of the hash); only on a
miss consult the store lookup; `ErrRecordNotFound` means not a duplicate and
every other lookup outcome (a found row, or a query error) means duplicate.
The Go function's second return value is always `nil` and is dropped here. -/
def checkDuplicate (event : Event) (dbLookup : StoreLookup) (events : List Event) : Bool :=
  if events.any (fun e => e.hash == event.hash) then true
  else
    match dbLookup with
    | StoreLookup.notFound => false
    | StoreLookup.found _ => true
    | StoreLookup.queryError _ => true

/-- Whether the store query inside `checkDuplicate` is reached: the body of
the Go function returns early (before `db.First`) exactly when the slice scan
hits, so the store is queried iff the batch scan misses. -/
def checkDuplicateQueriesStore (event : Event) (events : List Event) : Bool :=
  ! events.any (fun e => e.hash == event.hash)

/-- The generic row deletion `db.Where(cond).Delete(&Event{})`: rows
satisfying the predicate are removed, the rest are kept unchanged. -/
def deleteWhere (p : Event → Bool) (store : List Event) : List Event :=
  store.filter (fun e => ! p e)

/-- `pruneEvents` from main.go: `lastTime := time.Now().AddDate(-5, 0, 0).Unix()`
(the startup-time cutoff, modelled as the parameter `cutoff`) followed by
`db.Where("date_time < ?", lastTime).Delete(&Event{})`. -/
def pruneEvents (cutoff : Int) (store : List Event) : List Event :=
  deleteWhere (fun e => decide (e.dateTime < cutoff)) store

/-- A rendered feed item, the fields of `feeds.Item` populated by
`translateEventToItem` (`Created` is `time.Unix(event.DateTime, 0)`, kept
here as the raw unix seconds). -/
structure FeedItem where
  id : String
  title : String
  linkHref : String
  description : String
  authorName : String
  authorEmail : String
  created : Int
deriving DecidableEq

/-- `translateEventToItem` from main.go (its error return is always nil and
is dropped). The description is composed with the literal label
"\n\nBezirk: ". -/
def translateEventToItem (event : Event) : FeedItem :=
  { id := event.hash
    title := event.title
    linkHref := event.link
    description := event.description ++ "\n\nBezirk: " ++ event.location
    authorName := "Presseabteilung"
    authorEmail := "pressestelle@polizei.berlin.de"
    created := event.dateTime }

/-- Bool-valued substring test on char lists, the semantics of Go's
`strings.Contains`: the needle occurs as a contiguous run of the haystack. -/
def containsSub (needle : List Char) : List Char → Bool
  | [] => needle.isEmpty
  | c :: rest => needle.isPrefixOf (c :: rest) || containsSub needle rest

/-- Substring test on strings (Go `strings.Contains`). -/
def containsSubstr (needle hay : String) : Bool :=
  containsSub needle.data hay.data

/-- UTF-8 encoding of one character, byte values as Nat — the bytes Go's
`[]byte(s)` conversion produces for that rune. -/
def utf8EncodeCharNat (c : Char) : List Nat :=
  let v := c.toNat
  if v < 128 then [v]
  else if v < 2048 then [192 + v / 64, 128 + v % 64]
  else if v < 65536 then [224 + v / 4096, 128 + (v / 64) % 64, 128 + v % 64]
  else [240 + v / 262144, 128 + (v / 4096) % 64, 128 + (v / 64) % 64, 128 + v % 64]

/-- The byte sequence of a string under UTF-8, i.e. Go's `[]byte(s)`. -/
def stringBytes (s : String) : List Nat :=
  s.data.foldr (fun c acc => utf8EncodeCharNat c ++ acc) []

/-- One step of Adler-32 (`hash/adler32`): both running sums mod 65521. -/
def adler32Step (s : Nat × Nat) (b : Nat) : Nat × Nat :=
  let a := (s.1 + b) % 65521
  (a, (s.2 + a) % 65521)

/-- `adler32.Checksum`: fold the two running sums over the bytes starting
from (1, 0) and combine as `b <<< 16 ||| a`. -/
def adler32 (bytes : List Nat) : Nat :=
  let s := bytes.foldl adler32Step (1, 0)
  s.2 * 65536 + s.1

/-- Lowercase hex digit for a value below 16 (digits then letters from 'a'),
as produced by Go's `%x` verb. -/
def hexDigitChar (d : Nat) : Char :=
  if d < 10 then Char.ofNat (48 + d) else Char.ofNat (87 + d)

/-- Accumulate the hex digits of `n` (most significant first) in front of
`acc`. -/
def toHexAux (n : Nat) (acc : List Char) : List Char :=
  if h : n = 0 then acc
  else toHexAux (n / 16) (hexDigitChar (n % 16) :: acc)
termination_by n
decreasing_by exact Nat.div_lt_self (Nat.pos_of_ne_zero h) (by omega)

/-- Go's `fmt.Sprintf("%x", n)`: lowercase hex without leading zeros, "0"
for zero. -/
def toHex (n : Nat) : String :=
  if n = 0 then "0" else String.mk (toHexAux n [])

/-- Numeric value of one lowercase hex digit character. -/
def hexCharVal (c : Char) : Nat :=
  if c.toNat ≤ 57 then c.toNat - 48 else c.toNat - 87

/-- Read a hex digit list back as a number (decoder used to establish that
`toHex` is injective). -/
def hexListVal (l : List Char) : Nat :=
  l.foldl (fun acc c => acc * 16 + hexCharVal c) 0

/-- Decoder on strings. -/
def hexStringVal (s : String) : Nat :=
  hexListVal s.data

/-- The checksum input of main.go line 260:
`[]byte(event.Title + strconv.FormatInt(event.DateTime, 10))`. -/
def fingerprintBytes (title : String) (dateTime : Int) : List Nat :=
  stringBytes (title ++ toString dateTime)

/-- The fingerprint of main.go lines 260-261:
`fmt.Sprintf("%x", adler32.Checksum([]byte(title + strconv.FormatInt(ts, 10))))`. -/
def fingerprint (title : String) (dateTime : Int) : String :=
  toHex (adler32 (fingerprintBytes title dateTime))

/-- Observable actions of the fetch layer: sleeping (nanoseconds), acquiring
a token from the global rate limiter (`rateLimiter.Wait` inside
`RateLimitedClient.Do`), and issuing one HTTP request with a given
User-Agent header. -/
inductive FetchAction where
  | sleepNs (ns : Nat)
  | acquireToken
  | httpRequest (userAgent : String)
deriving DecidableEq

/-- `RateLimitedClient.Do` from main.go: wait on the rate limiter, then
perform the request on the wrapped client. -/
def rateLimitedDo (userAgent : String) : List FetchAction :=
  [FetchAction.acquireToken, FetchAction.httpRequest userAgent]

/-- `c.client.Do(req)` — the wrapped `http.Client` called directly, which is
what `extractMetaTags` does at main.go line 142 (`globalClient.client.Do`):
no limiter token is acquired. -/
def rawClientDo (userAgent : String) : List FetchAction :=
  [FetchAction.httpRequest userAgent]

/-- Per-attempt outcome of one request inside `extractMetaTags`: transport
error from `Do`, non-200 status (status text recorded, 429 special-cased),
body parse failure from goquery, or success with the extracted meta tags. -/
inductive AttemptOutcome where
  | ok (tags : List MetaTag)
  | transportErr (msg : String)
  | badStatus (code : Nat) (statusText : String)
  | parseErr (msg : String)
deriving DecidableEq

/-- Whether an attempt outcome makes the loop continue to the next attempt. -/
def isFailure : AttemptOutcome → Bool
  | AttemptOutcome.ok _ => false
  | _ => true

/-- The error value the loop records in `lastErr` for an outcome. -/
def outcomeErr : AttemptOutcome → Option String
  | AttemptOutcome.ok _ => none
  | AttemptOutcome.transportErr msg => some msg
  | AttemptOutcome.badStatus _ statusText => some statusText
  | AttemptOutcome.parseErr msg => some msg

/-- The user agent pool of main.go lines 132-136. -/
def userAgentPool : List String :=
  ["Mozilla/5.0 (Windows NT 10.0; Win64; x64) AppleWebKit/537.36 (KHTML, like Gecko) Chrome/91.0.4472.124 Safari/537.36",
   "Mozilla/5.0 (Macintosh; Intel Mac OS X 10_15_7) AppleWebKit/537.36 (KHTML, like Gecko) Chrome/91.0.4472.124 Safari/537.36",
   "Mozilla/5.0 (Windows NT 10.0; Win64; x64; rv:89.0) Gecko/20100101 Firefox/89.0"]

/-- `userAgents[attempt%len(userAgents)]`. -/
def uaFor (attempt : Nat) : String :=
  userAgentPool.getD (attempt % 3) ""

/-- One second in nanoseconds (`time.Second`). -/
def oneSecondNs : Nat := 1000000000

/-- Go's `%v` of the recorded error (a nil error renders as "<nil>"). -/
def errString : Option String → String
  | some msg => msg
  | none => "<nil>"

/-- The final error of main.go line 182:
`fmt.Errorf("failed after %d attempts, last error: %v", maxRetries, lastErr)`
with `maxRetries = 3`. -/
def exhaustedMsg (lastErr : Option String) : String :=
  "failed after 3 attempts, last error: " ++ errString lastErr

/-- Result of `extractMetaTags`: the sequence of observable fetch-layer
actions and the returned value. -/
structure FetchTrace where
  actions : List FetchAction
  result : Except String (List MetaTag)

/-- The retry loop of `extractMetaTags` (main.go lines 119-180). `fuel` is
the number of loop iterations left (starts at `maxRetries = 3`), `attempt`
the current 0-based attempt index. `o` gives the outcome of each attempt's
request, `jit` the jitter drawn by `rand.Float64() * float64(backoff)` in
nanoseconds, `cool` the draw of `rand.Intn(30)` for the 429 cooldown, and
`reqErr` the (attempt-independent) outcome of `http.NewRequest`. At the top
of every iteration but the first the loop sleeps `2^attempt` seconds plus
jitter; a 429 status additionally sleeps `30 + rand.Intn(30)` seconds before
the next iteration; requests go through `rawClientDo` because the source
calls `globalClient.client.Do(req)`, not `globalClient.Do(req)`. -/
def extractLoop (o : Nat → AttemptOutcome) (jit : Nat → Nat) (cool : Nat → Nat)
    (reqErr : Option String) : Nat → Nat → Option String → FetchTrace
  | 0, _, lastErr => { actions := [], result := Except.error (exhaustedMsg lastErr) }
  | fuel + 1, attempt, _ =>
    let pre : List FetchAction :=
      if 0 < attempt then [FetchAction.sleepNs (2 ^ attempt * oneSecondNs + jit attempt)] else []
    match reqErr with
    | some msg => { actions := pre, result := Except.error msg }
    | none =>
      let reqActs := rawClientDo (uaFor attempt)
      match o attempt with
      | AttemptOutcome.ok tags =>
        { actions := pre ++ reqActs, result := Except.ok tags }
      | AttemptOutcome.transportErr msg =>
        let rest := extractLoop o jit cool reqErr fuel (attempt + 1) (some msg)
        { actions := pre ++ reqActs ++ rest.actions, result := rest.result }
      | AttemptOutcome.badStatus code statusText =>
        let extra : List FetchAction :=
          if code == 429 then [FetchAction.sleepNs ((30 + cool attempt) * oneSecondNs)] else []
        let rest := extractLoop o jit cool reqErr fuel (attempt + 1) (some statusText)
        { actions := pre ++ reqActs ++ extra ++ rest.actions, result := rest.result }
      | AttemptOutcome.parseErr msg =>
        let rest := extractLoop o jit cool reqErr fuel (attempt + 1) (some msg)
        { actions := pre ++ reqActs ++ rest.actions, result := rest.result }

/-- `extractMetaTags` from main.go: the retry loop started with
`maxRetries = 3`, attempt 0 and `lastErr = nil`. -/
def extractMetaTags (o : Nat → AttemptOutcome) (jit : Nat → Nat) (cool : Nat → Nat)
    (reqErr : Option String) : FetchTrace :=
  extractLoop o jit cool reqErr 3 0 none

/-- Recognize HTTP request actions (to count attempts a target observes). -/
def isHttpRequest : FetchAction → Bool
  | FetchAction.httpRequest _ => true
  | _ => false

/-- Number of HTTP requests the fetch target observes in a trace. -/
def httpAttempts (t : FetchTrace) : Nat :=
  t.actions.countP isHttpRequest

/-- Recognize rate-limiter token acquisitions. -/
def isAcquireToken : FetchAction → Bool
  | FetchAction.acquireToken => true
  | _ => false

/-- Whether an attempt outcome is the HTTP 429 case that triggers the extra
cooldown sleep (main.go line 154). -/
def is429 : AttemptOutcome → Bool
  | AttemptOutcome.badStatus code _ => code == 429
  | _ => false

/-- One listing entry of the scraped page as seen by the `OnHTML` handler:
the parsed date (`None` when `time.Parse` fails), the anchor text, the
anchor href and the `span.category` text. -/
structure ListingEntry where
  parsedDate : Option Int
  title : String
  linkPath : String
  locationText : String
deriving DecidableEq

/-- The sentinel set at main.go line 258 before enrichment is attempted. -/
def placeholderDescription : String := "Keine Beschreibung gefunden"

/-- The base origin prepended to entry hrefs (main.go line 256). -/
def berlinBase : String := "https://www.berlin.de"

/-- The label stripped from the location text (main.go line 257). -/
def locationLabel : String := "Ereignisort: "

/-- Go's `strings.TrimPrefix`: drop the label if it is present. -/
def dropLabel (label s : String) : String :=
  if label.isPrefixOf s then s.drop label.length else s

/-- The event the `OnHTML` handler assembles from one listing entry whose
date parsed to `dt` (main.go lines 247-261), description still the
placeholder and the hash the adler32 fingerprint. -/
def buildEvent (entry : ListingEntry) (dt : Int) : Event :=
  { title := entry.title
    description := placeholderDescription
    location := dropLabel locationLabel entry.locationText
    link := berlinBase ++ entry.linkPath
    dateTime := dt
    hash := fingerprint entry.title dt }

/-- The `OnHTML` handler body (main.go lines 246-280) for one listing entry:
skip on date-parse failure; build the event; gate with `checkDuplicate`
against the `events` slice (the store-loaded snapshot — NOT the pass's
`newEvents`); on extraction error the handler returns, dropping the entry;
otherwise the first meta tag named "description" (via `slices.IndexFunc`)
overwrites the placeholder and the event is appended to the batch. -/
def processEntry (entry : ListingEntry) (events : List Event)
    (dbLookup : String → StoreLookup)
    (extract : String → Except String (List MetaTag)) : Option Event :=
  match entry.parsedDate with
  | none => none
  | some dt =>
    let event := buildEvent entry dt
    if checkDuplicate event (dbLookup event.hash) events then none
    else
      match extract event.link with
      | Except.error _ => none
      | Except.ok tags =>
        match tags.find? (fun tag => tag.name == "description") with
        | some tag => some { event with description := tag.content }
        | none => some event

/-- One harvest pass over the listing: each entry is handled by the `OnHTML`
handler with the same pre-pass `events` snapshot (the source closes over the
outer `events` slice, which `OnScraped` extends only after the pass), and
accepted events are appended to `newEvents` in listing order. -/
def runPass (events : List Event) (dbLookup : String → StoreLookup)
    (extract : String → Except String (List MetaTag))
    (entries : List ListingEntry) : List Event :=
  entries.foldl
    (fun newEvents entry =>
      match processEntry entry events dbLookup extract with
      | some ev => newEvents ++ [ev]
      | none => newEvents)
    []

/-- `db.Create` under the `gorm:"unique"` constraint on `Hash`: inserting a
row whose hash is already present fails with a uniqueness violation,
otherwise the row is appended. -/
def dbCreate (store : List Event) (ev : Event) : Except String (List Event) :=
  if store.any (fun e => e.hash == ev.hash) then
    Except.error "UNIQUE constraint failed: events.hash"
  else Except.ok (store ++ [ev])

/-- The mutable state the `OnScraped` handler updates: the durable store,
the in-memory `events` slice and the feed's item list. -/
structure PassState where
  store : List Event
  events : List Event
  feed : List FeedItem
deriving DecidableEq

/-- The `OnScraped` commit loop (main.go lines 285-294): each batched event
is inserted with `db.Create`; on insert error the event is skipped (logged
and `continue`), otherwise it is added to the feed and to `events`. -/
def commitBatch (st : PassState) (batch : List Event) : PassState :=
  batch.foldl
    (fun st ev =>
      match dbCreate st.store ev with
      | Except.error _ => st
      | Except.ok store2 =>
        { store := store2
          events := st.events ++ [ev]
          feed := st.feed ++ [translateEventToItem ev] })
    st

/-- Outcome of one `mainCollector.Visit(policeURL)` call in the ticker
goroutine. -/
inductive VisitOutcome where
  | ok
  | visitErr (msg : String)
deriving DecidableEq

/-- Result of running the ticker goroutine over a sequence of tick outcomes:
how many ticks fired a visit, and whether the process exited. -/
structure SchedulerRun where
  ticksFired : Nat
  processExited : Bool
deriving DecidableEq

/-- The ticker goroutine of main.go lines 316-330: on every tick it calls
`Visit`; a nil error continues the loop, a non-nil error hits
`log.Fatal(err)`, which prints and calls `os.Exit(1)` — the process
terminates and no further tick fires (the `return` after it is dead code). -/
def tickerLoop : List VisitOutcome → SchedulerRun
  | [] => { ticksFired := 0, processExited := false }
  | VisitOutcome.ok :: rest =>
    let r := tickerLoop rest
    { ticksFired := r.ticksFired + 1, processExited := r.processExited }
  | VisitOutcome.visitErr _ :: _ => { ticksFired := 1, processExited := true }

/-- The startup sequence of main (lines 207-230) on the success path:
`pruneEvents` runs first, then `db.Find(&events)` loads the (now pruned)
store, and the initial feed is built from those events (the `.Limit(250)`
after `Find` has no effect on an already-executed query). -/
def startupFeed (store : List Event) (cutoff : Int) : List FeedItem :=
  (pruneEvents cutoff store).map translateEventToItem

/-- Sample event used to instantiate hypotheses of the gate theorems. -/
def sampleEvent : Event :=
  { title := "T", description := "D", location := "L", link := "U",
    dateTime := 0, hash := "aa" }

/-- The record of the repository's `TestTranslateEventToItem`. -/
def sampleRecord : Event :=
  { title := "MyTitle", description := "Desc", location := "Mitte",
    link := "https://example.com/1", dateTime := 1588334400, hash := "thehash" }

/-- A listing entry that parses cleanly; used twice in a row to model an
upstream listing showing the same entry twice in one pass. -/
def dupEntry : ListingEntry :=
  { parsedDate := some 100, title := "T", linkPath := "/x",
    locationText := "Ereignisort: Mitte" }

/-- A second clean listing entry. -/
def freshEntry : ListingEntry :=
  { parsedDate := some 200, title := "U", linkPath := "/y",
    locationText := "Ereignisort: Pankow" }

/-- Store lookup oracle answering not-found for every fingerprint. -/
def lookupNotFound : String → StoreLookup := fun _ => StoreLookup.notFound

/-- Extraction oracle succeeding with no meta tags. -/
def extractEmptyOk : String → Except String (List MetaTag) :=
  fun _ => Except.ok []

/-- Extraction oracle failing for every URL. -/
def extractFails : String → Except String (List MetaTag) :=
  fun _ => Except.error "fetch failed"

/-- Attempt outcomes: first attempt fails with a transport error, every
later attempt succeeds with no tags. -/
def failThenOk : Nat → AttemptOutcome :=
  fun n => if n == 0 then AttemptOutcome.transportErr "boom" else AttemptOutcome.ok []

/-- Attempt outcomes: every attempt fails with the same transport error. -/
def alwaysFail : Nat → AttemptOutcome :=
  fun _ => AttemptOutcome.transportErr "down"

/-- The zero random oracle (no jitter, no cooldown draw). -/
def zeroRand : Nat → Nat := fun _ => 0

/-- The state before any commit: empty store, empty slice, empty feed. -/
def emptyPassState : PassState :=
  { store := [], events := [], feed := [] }

/-- C1: for every candidate, in-flight batch and store state, a batch hash
match makes `checkDuplicate` answer true with the store left unqueried; on a
batch miss the store is queried, a not-found lookup yields false, and both a
found row and a query error yield true. -/
theorem checkDuplicate_spec (event : Event) (dbLookup : StoreLookup)
    (events : List Event) (stored : Event) (msg : String) :
    (events.any (fun e => e.hash == event.hash) = true →
      checkDuplicate event dbLookup events = true ∧
      checkDuplicateQueriesStore event events = false) ∧
    (events.any (fun e => e.hash == event.hash) = false →
      checkDuplicateQueriesStore event events = true ∧
      (dbLookup = StoreLookup.notFound → checkDuplicate event dbLookup events = false) ∧
      (dbLookup = StoreLookup.found stored → checkDuplicate event dbLookup events = true) ∧
      (dbLookup = StoreLookup.queryError msg → checkDuplicate event dbLookup events = true)) := by
  constructor
  · intro h
    simp [checkDuplicate, checkDuplicateQueriesStore, h]
  · intro h
    refine ⟨by simp [checkDuplicateQueriesStore, h], ?_, ?_, ?_⟩ <;>
      intro hl <;> subst hl <;> simp [checkDuplicate, h]

/-- Witness for C1 at concrete inputs: a batch hit, a not-found miss, a
found row and a query error. -/
theorem checkDuplicate_spec_witness :
    (checkDuplicate sampleEvent StoreLookup.notFound [sampleEvent] = true ∧
      checkDuplicateQueriesStore sampleEvent [sampleEvent] = false) ∧
    checkDuplicate sampleEvent StoreLookup.notFound [] = false ∧
    checkDuplicate sampleEvent (StoreLookup.found sampleRecord) [] = true ∧
    checkDuplicate sampleEvent (StoreLookup.queryError "disk error") [] = true := by
  refine ⟨?_, ?_, ?_, ?_⟩
  · exact (checkDuplicate_spec sampleEvent StoreLookup.notFound [sampleEvent]
      sampleRecord "disk error").1 (by decide)
  · exact ((checkDuplicate_spec sampleEvent StoreLookup.notFound []
      sampleRecord "disk error").2 (by decide)).2.1 rfl
  · exact ((checkDuplicate_spec sampleEvent (StoreLookup.found sampleRecord) []
      sampleRecord "disk error").2 (by decide)).2.2.1 rfl
  · exact ((checkDuplicate_spec sampleEvent (StoreLookup.queryError "disk error") []
      sampleRecord "disk error").2 (by decide)).2.2.2 rfl

/-- C3: pruning with cutoff `now - retention horizon` keeps exactly the
records whose occurrence timestamp is at least the cutoff (i.e. deletes
exactly the strictly older ones), and the kept records form an unchanged
sublist of the store. -/
theorem pruneEvents_spec (cutoff : Int) (store : List Event) (ev : Event) :
    (ev ∈ pruneEvents cutoff store ↔ ev ∈ store ∧ cutoff ≤ ev.dateTime) ∧
    List.Sublist (pruneEvents cutoff store) store := by
  constructor
  · simp [pruneEvents, deleteWhere, List.mem_filter, Int.not_lt]
  · exact List.filter_sublist store

/-- C5 (code bug evidence): a scheduled tick whose `Visit` returns an error
hits `log.Fatal`, so the process exits after that tick and the two following
ticks never fire — the pass failure is not contained. -/
theorem tickerLoop_exits_on_visit_error :
    tickerLoop [VisitOutcome.visitErr "Get request failed",
      VisitOutcome.ok, VisitOutcome.ok] =
      { ticksFired := 1, processExited := true } := rfl

/-- A needle that is a prefix of the haystack is a contained substring. -/
theorem containsSub_of_isPrefixOf (needle hay : List Char)
    (h : needle.isPrefixOf hay = true) : containsSub needle hay = true := by
  cases hay with
  | nil =>
    cases needle with
    | nil => rfl
    | cons c t => simp [List.isPrefixOf] at h
  | cons c rest => simp [containsSub, h]

/-- Substring containment is stable under prepending to the haystack. -/
theorem containsSub_append_left (needle pre hay : List Char)
    (h : containsSub needle hay = true) : containsSub needle (pre ++ hay) = true := by
  induction pre with
  | nil => simpa using h
  | cons c t ih => simp [containsSub, ih]

/-- C7 counterexample: for the record of the repository's own translation
test (location "Mitte"), the produced description does not contain
"Location: Mitte" — the source composes the description with the label
"Bezirk: ", not "Location: ". -/
theorem translateEventToItem_no_location_label :
    containsSubstr ("Location: " ++ sampleRecord.location)
      (translateEventToItem sampleRecord).description = false := by decide

/-- C7 amended: the feed item's identifier is the record's fingerprint
field, its description contains the original description and the text
"Bezirk: " followed by the record's location, and its creation time is the
record's occurrence timestamp. -/
theorem translateEventToItem_spec (event : Event) :
    (translateEventToItem event).id = event.hash ∧
    containsSubstr event.description (translateEventToItem event).description = true ∧
    containsSubstr ("Bezirk: " ++ event.location)
      (translateEventToItem event).description = true ∧
    (translateEventToItem event).created = event.dateTime := by
  refine ⟨rfl, ?_, ?_, rfl⟩
  · unfold containsSubstr translateEventToItem
    apply containsSub_of_isPrefixOf
    rw [List.isPrefixOf_iff_prefix]
    simp only [String.data_append, List.append_assoc]
    exact List.prefix_append event.description.data _
  · unfold containsSubstr translateEventToItem
    have hsplit : (event.description ++ "\n\nBezirk: " ++ event.location).data
        = (event.description.data ++ "\n\n".data)
          ++ (("Bezirk: " ++ event.location).data) := by
      simp [String.data_append, List.append_assoc]
    rw [hsplit]
    apply containsSub_append_left
    apply containsSub_of_isPrefixOf
    rw [List.isPrefixOf_iff_prefix]

/-- C10: on the startup success path pruning runs before the initial feed
materialization, so every item of the first rendered feed has a creation
time at or after the retention cutoff computed at startup. -/
theorem startupFeed_no_stale_records (store : List Event) (cutoff : Int) :
    (startupFeed store cutoff).all (fun item => decide (cutoff ≤ item.created)) = true := by
  simp only [startupFeed, pruneEvents, deleteWhere, List.all_eq_true, List.mem_map,
    List.mem_filter]
  rintro item ⟨ev, ⟨_, hkeep⟩, rfl⟩
  simp only [translateEventToItem, decide_eq_true_eq]
  simp only [Bool.not_eq_true', decide_eq_false_iff_not, Int.not_lt] at hkeep
  exact hkeep

/-- Hex digits round-trip through their character rendering. -/
theorem hexCharVal_hexDigitChar (d : Nat) (h : d < 16) :
    hexCharVal (hexDigitChar d) = d := by
  have key : ∀ f : Fin 16, hexCharVal (hexDigitChar f.val) = f.val := by decide
  exact key ⟨d, h⟩

/-- Folding the hex decoder over the digits accumulated by `toHexAux n acc`
equals folding it over `acc` alone started at `n`. -/
theorem foldl_toHexAux (n : Nat) :
    ∀ acc : List Char,
      (toHexAux n acc).foldl (fun a c => a * 16 + hexCharVal c) 0
        = acc.foldl (fun a c => a * 16 + hexCharVal c) n := by
  induction n using Nat.strong_induction_on with
  | _ n ih =>
    intro acc
    rw [toHexAux]
    split
    · next h => subst h; rfl
    · next h =>
      rw [ih (n / 16) (Nat.div_lt_self (Nat.pos_of_ne_zero h) (by omega))]
      simp only [List.foldl]
      rw [hexCharVal_hexDigitChar (n % 16) (Nat.mod_lt n (by omega))]
      congr 1
      omega

/-- The decoder inverts `toHex`. -/
theorem hexStringVal_toHex (n : Nat) : hexStringVal (toHex n) = n := by
  unfold toHex
  split
  · next h => subst h; decide
  · next h =>
    show hexListVal (toHexAux n []) = n
    unfold hexListVal
    rw [foldl_toHexAux n []]
    rfl

/-- Go's `%x` rendering is injective. -/
theorem toHex_inj (m n : Nat) (h : toHex m = toHex n) : m = n := by
  have hm := hexStringVal_toHex m
  rw [h, hexStringVal_toHex n] at hm
  exact hm.symm

/-- C8: computing the fingerprint twice yields the same value, and two
(title, timestamp) pairs receive the same fingerprint exactly when the
adler32 checksum of their concatenated byte renderings coincides — so
distinct pairs get distinct fingerprints except on a checksum coincidence. -/
theorem fingerprint_spec (t1 t2 : String) (s1 s2 : Int) :
    fingerprint t1 s1 = fingerprint t1 s1 ∧
    (fingerprint t1 s1 = fingerprint t2 s2 ↔
      adler32 (fingerprintBytes t1 s1) = adler32 (fingerprintBytes t2 s2)) := by
  refine ⟨rfl, ?_, ?_⟩
  · exact fun h => toHex_inj _ _ h
  · intro h
    unfold fingerprint
    rw [h]

/-- C4 counterexample: a fresh listing entry (clean date, passes the gate)
whose metadata extraction fails is dropped by the OnHTML handler — it is not
accepted with the placeholder description, contrary to the claim. -/
theorem processEntry_drops_on_extract_failure :
    processEntry freshEntry [] lookupNotFound extractFails = none := rfl

/-- C4 amended: for a gated-in entry, extraction failure drops the entry
from the pass; the placeholder sentinel survives into the committed record
only when extraction succeeds but yields no "description" meta tag. -/
theorem processEntry_enrichment_policy (entry : ListingEntry) (dt : Int)
    (events : List Event) (dbLookup : String → StoreLookup)
    (extract : String → Except String (List MetaTag)) (msg : String)
    (tags : List MetaTag) :
    entry.parsedDate = some dt →
    checkDuplicate (buildEvent entry dt) (dbLookup (buildEvent entry dt).hash) events = false →
    ((extract (buildEvent entry dt).link = Except.error msg →
        processEntry entry events dbLookup extract = none) ∧
      (extract (buildEvent entry dt).link = Except.ok tags →
        tags.find? (fun tag => tag.name == "description") = none →
        processEntry entry events dbLookup extract = some (buildEvent entry dt)) ∧
      (buildEvent entry dt).description = placeholderDescription) := by
  intro hdate hgate
  refine ⟨?_, ?_, rfl⟩
  · intro hex
    simp [processEntry, hdate, hgate, hex]
  · intro hex hfind
    simp [processEntry, hdate, hgate, hex, hfind]

/-- Witness for the amended C4 at concrete inputs: the same fresh entry is
dropped when extraction fails and committed with the placeholder when
extraction succeeds with no description tag. -/
theorem processEntry_enrichment_policy_witness :
    processEntry freshEntry [] lookupNotFound extractFails = none ∧
    processEntry freshEntry [] lookupNotFound extractEmptyOk
      = some (buildEvent freshEntry 200) ∧
    (buildEvent freshEntry 200).description = placeholderDescription := by
  refine ⟨?_, ?_, ?_⟩
  · exact (processEntry_enrichment_policy freshEntry 200 [] lookupNotFound
      extractFails "fetch failed" [] rfl rfl).1 rfl
  · exact ((processEntry_enrichment_policy freshEntry 200 [] lookupNotFound
      extractEmptyOk "fetch failed" [] rfl rfl).2.1) rfl rfl
  · exact (processEntry_enrichment_policy freshEntry 200 [] lookupNotFound
      extractEmptyOk "fetch failed" [] rfl rfl).2.2

/-- C9 counterexample: a listing showing the same entry twice in one pass.
Both copies pass the duplicate gate (the gate consults only the pre-pass
`events` snapshot, never the pass's own batch), so the batch ends with two
events carrying the same fingerprint — the second copy was not gated out. -/
theorem runPass_inpass_duplicate_not_gated :
    (runPass [] lookupNotFound extractEmptyOk [dupEntry, dupEntry]).length = 2 ∧
    (runPass [] lookupNotFound extractEmptyOk [dupEntry, dupEntry]).map Event.hash
      = [fingerprint "T" 100, fingerprint "T" 100] := by
  exact ⟨rfl, rfl⟩

/-- C9 amended: the in-pass gate sees only pre-pass records, so an in-pass
repeat reaches the commit loop; there the store's unique-hash constraint
rejects it, so committing any batch preserves fingerprint uniqueness of the
store. -/
theorem commitBatch_preserves_unique_hashes (st : PassState) (batch : List Event)
    (h : (st.store.map Event.hash).Nodup) :
    ((commitBatch st batch).store.map Event.hash).Nodup := by
  induction batch generalizing st with
  | nil => simpa [commitBatch] using h
  | cons ev rest ih =>
    simp only [commitBatch, List.foldl_cons] at *
    apply ih
    rcases hdup : st.store.any (fun e => e.hash == ev.hash) with _ | _
    · simp only [dbCreate, hdup, Bool.false_eq_true, if_false]
      simp only [List.map_append, List.map_cons, List.map_nil]
      rw [List.nodup_append]
      refine ⟨h, List.nodup_singleton _, ?_⟩
      intro x hx hx2
      simp only [List.mem_singleton] at hx2
      subst hx2
      rcases List.mem_map.mp hx with ⟨e, he, hehash⟩
      have := List.any_eq_false.mp hdup e he
      simp only [beq_iff_eq] at this
      exact this hehash
    · simp only [dbCreate, hdup, if_true]
      exact h

/-- Witness for the amended C9: committing a batch containing the same event
twice into an empty store leaves the store's hash list duplicate-free. -/
theorem commitBatch_preserves_unique_hashes_witness :
    (emptyPassState.store.map Event.hash).Nodup ∧
    ((commitBatch emptyPassState [sampleEvent, sampleEvent]).store.map Event.hash).Nodup := by
  exact ⟨by simp [emptyPassState],
    commitBatch_preserves_unique_hashes emptyPassState [sampleEvent, sampleEvent]
      (by simp [emptyPassState])⟩

/-- Unfolding one failing iteration of the retry loop: backoff sleep (when
not the first attempt), the raw request, the 429 cooldown when applicable,
then the rest of the loop with `lastErr` set to this attempt's error. -/
theorem extractLoop_step_fail (o : Nat → AttemptOutcome) (jit cool : Nat → Nat)
    (fuel attempt : Nat) (lastErr : Option String)
    (h : isFailure (o attempt) = true) :
    extractLoop o jit cool none (fuel + 1) attempt lastErr
      = { actions :=
            (if 0 < attempt then
              [FetchAction.sleepNs (2 ^ attempt * oneSecondNs + jit attempt)] else [])
            ++ rawClientDo (uaFor attempt)
            ++ (if is429 (o attempt) then
                  [FetchAction.sleepNs ((30 + cool attempt) * oneSecondNs)] else [])
            ++ (extractLoop o jit cool none fuel (attempt + 1)
                  (outcomeErr (o attempt))).actions,
          result := (extractLoop o jit cool none fuel (attempt + 1)
            (outcomeErr (o attempt))).result } := by
  cases ho : o attempt with
  | ok t => rw [ho] at h; simp [isFailure] at h
  | transportErr m => simp [extractLoop, ho, is429, outcomeErr]
  | badStatus c s => simp [extractLoop, ho, is429, outcomeErr]
  | parseErr m => simp [extractLoop, ho, is429, outcomeErr]

/-- Unfolding one successful iteration of the retry loop: the optional
backoff sleep and the raw request, then return the extracted tags. -/
theorem extractLoop_step_ok (o : Nat → AttemptOutcome) (jit cool : Nat → Nat)
    (fuel attempt : Nat) (lastErr : Option String) (tags : List MetaTag)
    (h : o attempt = AttemptOutcome.ok tags) :
    extractLoop o jit cool none (fuel + 1) attempt lastErr
      = { actions :=
            (if 0 < attempt then
              [FetchAction.sleepNs (2 ^ attempt * oneSecondNs + jit attempt)] else [])
            ++ rawClientDo (uaFor attempt),
          result := Except.ok tags } := by
  simp [extractLoop, h]

/-- The loop issues at most one HTTP request per unit of fuel. -/
theorem extractLoop_http_le (o : Nat → AttemptOutcome) (jit cool : Nat → Nat)
    (reqErr : Option String) :
    ∀ fuel attempt lastErr,
      (extractLoop o jit cool reqErr fuel attempt lastErr).actions.countP isHttpRequest
        ≤ fuel := by
  intro fuel
  induction fuel with
  | zero => intro a le; simp [extractLoop]
  | succ n ih =>
    intro a le
    cases reqErr with
    | some msg =>
      simp only [extractLoop]
      split <;> simp [isHttpRequest]
    | none =>
      cases ho : o a with
      | ok t =>
        rw [extractLoop_step_ok o jit cool n a le t ho]
        split <;> simp [rawClientDo, isHttpRequest, List.countP_cons, List.countP_append]
      | transportErr m =>
        rw [extractLoop_step_fail o jit cool n a le (by simp [isFailure, ho])]
        have hr := ih (a + 1) (outcomeErr (o a))
        simp only [List.countP_append]
        split <;> split <;>
          simp [rawClientDo, isHttpRequest, List.countP_cons, List.countP_nil] <;>
          omega
      | badStatus c s =>
        rw [extractLoop_step_fail o jit cool n a le (by simp [isFailure, ho])]
        have hr := ih (a + 1) (outcomeErr (o a))
        simp only [List.countP_append]
        split <;> split <;>
          simp [rawClientDo, isHttpRequest, List.countP_cons, List.countP_nil] <;>
          omega
      | parseErr m =>
        rw [extractLoop_step_fail o jit cool n a le (by simp [isFailure, ho])]
        have hr := ih (a + 1) (outcomeErr (o a))
        simp only [List.countP_append]
        split <;> split <;>
          simp [rawClientDo, isHttpRequest, List.countP_cons, List.countP_nil] <;>
          omega

/-- The loop never acquires a rate-limiter token: every request goes through
the wrapped client directly (`globalClient.client.Do`). -/
theorem extractLoop_no_acquire (o : Nat → AttemptOutcome) (jit cool : Nat → Nat)
    (reqErr : Option String) :
    ∀ fuel attempt lastErr,
      (extractLoop o jit cool reqErr fuel attempt lastErr).actions.countP isAcquireToken
        = 0 := by
  intro fuel
  induction fuel with
  | zero => intro a le; simp [extractLoop]
  | succ n ih =>
    intro a le
    cases reqErr with
    | some msg =>
      simp only [extractLoop]
      split <;> simp [isAcquireToken]
    | none =>
      cases ho : o a with
      | ok t =>
        rw [extractLoop_step_ok o jit cool n a le t ho]
        split <;> simp [rawClientDo, isAcquireToken, List.countP_cons, List.countP_append]
      | transportErr m =>
        rw [extractLoop_step_fail o jit cool n a le (by simp [isFailure, ho])]
        have hr := ih (a + 1) (outcomeErr (o a))
        simp only [List.countP_append]
        split <;> split <;>
          simp [rawClientDo, isAcquireToken, List.countP_cons, List.countP_nil, hr]
      | badStatus c s =>
        rw [extractLoop_step_fail o jit cool n a le (by simp [isFailure, ho])]
        have hr := ih (a + 1) (outcomeErr (o a))
        simp only [List.countP_append]
        split <;> split <;>
          simp [rawClientDo, isAcquireToken, List.countP_cons, List.countP_nil, hr]
      | parseErr m =>
        rw [extractLoop_step_fail o jit cool n a le (by simp [isFailure, ho])]
        have hr := ih (a + 1) (outcomeErr (o a))
        simp only [List.countP_append]
        split <;> split <;>
          simp [rawClientDo, isAcquireToken, List.countP_cons, List.countP_nil, hr]

/-- C6 (code bug evidence): no call during metadata extraction ever acquires
a token from the global rate limiter — the trace of `extractMetaTags`
contains zero `acquireToken` actions for every outcome sequence, whereas the
unused wrapper `RateLimitedClient.Do` would contribute exactly one per
request. -/
theorem extractMetaTags_bypasses_rate_limiter (o : Nat → AttemptOutcome)
    (jit cool : Nat → Nat) (reqErr : Option String) (ua : String) :
    (extractMetaTags o jit cool reqErr).actions.countP isAcquireToken = 0 ∧
    (rateLimitedDo ua).countP isAcquireToken = 1 := by
  exact ⟨extractLoop_no_acquire o jit cool reqErr 3 0 none,
    by simp [rateLimitedDo, isAcquireToken, List.countP_cons]⟩

/-- C2: the retry loop issues at most 3 attempts; a first-attempt failure
followed by a second-attempt success returns the tags after exactly 2
attempts; three failures return the exhaustion error carrying the last
attempt's error after exactly 3 attempts; and (shown on the full trace of
the all-fail, no-429 run) before retry attempt n the loop sleeps exactly
2^n seconds plus the drawn jitter — the jitter oracle stands for
`rand.Float64() * float64(backoff)`, a value in [0, backoff). -/
theorem extractMetaTags_retry_spec (o : Nat → AttemptOutcome) (jit cool : Nat → Nat)
    (reqErr : Option String) (tags : List MetaTag) :
    httpAttempts (extractMetaTags o jit cool reqErr) ≤ 3 ∧
    (reqErr = none → isFailure (o 0) = true → o 1 = AttemptOutcome.ok tags →
      (extractMetaTags o jit cool reqErr).result = Except.ok tags ∧
      httpAttempts (extractMetaTags o jit cool reqErr) = 2) ∧
    (reqErr = none → (∀ n, n < 3 → isFailure (o n) = true) →
      (extractMetaTags o jit cool reqErr).result
        = Except.error (exhaustedMsg (outcomeErr (o 2))) ∧
      httpAttempts (extractMetaTags o jit cool reqErr) = 3) ∧
    (reqErr = none → (∀ n, n < 3 → isFailure (o n) = true) →
      (∀ n, n < 3 → is429 (o n) = false) →
      (extractMetaTags o jit cool reqErr).actions
        = [FetchAction.httpRequest (uaFor 0),
           FetchAction.sleepNs (2 ^ 1 * oneSecondNs + jit 1),
           FetchAction.httpRequest (uaFor 1),
           FetchAction.sleepNs (2 ^ 2 * oneSecondNs + jit 2),
           FetchAction.httpRequest (uaFor 2)]) := by
  refine ⟨extractLoop_http_le o jit cool reqErr 3 0 none, ?_, ?_, ?_⟩
  · intro hre hfail hok
    subst hre
    have base : extractMetaTags o jit cool none
        = extractLoop o jit cool none (2 + 1) 0 none := rfl
    have e1 := extractLoop_step_fail o jit cool 2 0 none hfail
    have cv2 : extractLoop o jit cool none 2 (0 + 1) (outcomeErr (o 0))
        = extractLoop o jit cool none (1 + 1) 1 (outcomeErr (o 0)) := rfl
    have e2 := extractLoop_step_ok o jit cool 1 1 (outcomeErr (o 0)) tags hok
    rw [base, e1, cv2, e2]
    constructor
    · rfl
    · simp [httpAttempts, List.countP_append, rawClientDo, isHttpRequest,
        List.countP_cons, apply_ite (List.countP isHttpRequest)]
  · intro hre hfail
    subst hre
    have base2 : extractMetaTags o jit cool none
        = extractLoop o jit cool none (2 + 1) 0 none := rfl
    have e1 := extractLoop_step_fail o jit cool 2 0 none (hfail 0 (by omega))
    have cv2 : extractLoop o jit cool none 2 (0 + 1) (outcomeErr (o 0))
        = extractLoop o jit cool none (1 + 1) 1 (outcomeErr (o 0)) := rfl
    have e2 := extractLoop_step_fail o jit cool 1 1 (outcomeErr (o 0)) (hfail 1 (by omega))
    have cv3 : extractLoop o jit cool none 1 (1 + 1) (outcomeErr (o 1))
        = extractLoop o jit cool none (0 + 1) 2 (outcomeErr (o 1)) := rfl
    have e3 := extractLoop_step_fail o jit cool 0 2 (outcomeErr (o 1)) (hfail 2 (by omega))
    have b0 : extractLoop o jit cool none 0 (2 + 1) (outcomeErr (o 2))
        = { actions := [], result := Except.error (exhaustedMsg (outcomeErr (o 2))) } := rfl
    rw [base2, e1, cv2, e2, cv3, e3, b0]
    constructor
    · rfl
    · simp [httpAttempts, List.countP_append, rawClientDo, isHttpRequest,
        List.countP_cons, apply_ite (List.countP isHttpRequest)]
  · intro hre hfail h429
    subst hre
    have base2 : extractMetaTags o jit cool none
        = extractLoop o jit cool none (2 + 1) 0 none := rfl
    have e1 := extractLoop_step_fail o jit cool 2 0 none (hfail 0 (by omega))
    have cv2 : extractLoop o jit cool none 2 (0 + 1) (outcomeErr (o 0))
        = extractLoop o jit cool none (1 + 1) 1 (outcomeErr (o 0)) := rfl
    have e2 := extractLoop_step_fail o jit cool 1 1 (outcomeErr (o 0)) (hfail 1 (by omega))
    have cv3 : extractLoop o jit cool none 1 (1 + 1) (outcomeErr (o 1))
        = extractLoop o jit cool none (0 + 1) 2 (outcomeErr (o 1)) := rfl
    have e3 := extractLoop_step_fail o jit cool 0 2 (outcomeErr (o 1)) (hfail 2 (by omega))
    have b0 : extractLoop o jit cool none 0 (2 + 1) (outcomeErr (o 2))
        = { actions := [], result := Except.error (exhaustedMsg (outcomeErr (o 2))) } := rfl
    rw [base2, e1, cv2, e2, cv3, e3, b0]
    simp [h429 0 (by omega), h429 1 (by omega), h429 2 (by omega), rawClientDo]

/-- Witness for C2 at concrete outcome sequences: fail-then-succeed yields
the tags after 2 attempts; always-fail yields the exhaustion error carrying
the last error after 3 attempts, with the backoff sleeps of 2 and 4 seconds
in the trace. -/
theorem extractMetaTags_retry_spec_witness :
    ((extractMetaTags failThenOk zeroRand zeroRand none).result = Except.ok [] ∧
      httpAttempts (extractMetaTags failThenOk zeroRand zeroRand none) = 2) ∧
    ((extractMetaTags alwaysFail zeroRand zeroRand none).result
        = Except.error (exhaustedMsg (outcomeErr (alwaysFail 2))) ∧
      httpAttempts (extractMetaTags alwaysFail zeroRand zeroRand none) = 3) ∧
    (extractMetaTags alwaysFail zeroRand zeroRand none).actions
      = [FetchAction.httpRequest (uaFor 0),
         FetchAction.sleepNs (2 ^ 1 * oneSecondNs + zeroRand 1),
         FetchAction.httpRequest (uaFor 1),
         FetchAction.sleepNs (2 ^ 2 * oneSecondNs + zeroRand 2),
         FetchAction.httpRequest (uaFor 2)] := by
  refine ⟨?_, ?_, ?_⟩
  · exact (extractMetaTags_retry_spec failThenOk zeroRand zeroRand none []).2.1
      rfl rfl rfl
  · exact (extractMetaTags_retry_spec alwaysFail zeroRand zeroRand none []).2.2.1
      rfl (fun n _ => rfl)
  · exact (extractMetaTags_retry_spec alwaysFail zeroRand zeroRand none []).2.2.2
      rfl (fun n _ => rfl) (fun n _ => rfl)

end BerlinPoliceFeed
